import Mathlib

/-!
# `src/custom/defines_core.hpp`: build-time selection of the file-reading primitives

The header consists of preprocessor directives only.  It is embedded as the list of
its directives (`defines_core_hpp`), run by a small interpreter of the conditional
directives it uses (`#ifndef`, `#ifdef`, `#else`, `#endif`, `#include`, `#define`).

The headers it includes are not part of the development.  The build configuration
`cfg` is the list of macro names that `../config/rathena.hpp` leaves defined; the
other included headers are recorded as included.
-/

namespace DefinesCore

/-! ## Preprocessor state and directives -/

/-- Function-like macro `NAME(params) callee(args)`. -/
structure MacroDef where
  name : String
  params : List String
  callee : String
  args : List String
  deriving DecidableEq, Repr

/-- Directives occurring in the header.  `endif` carries its trailing comment. -/
inductive Directive where
  | ifndef (name : String)
  | ifdef (name : String)
  | orElse
  | endif (comment : String)
  | defineFlag (name : String)
  | defineFn (m : MacroDef)
  | includeFile (path : String)
  deriving DecidableEq, Repr

/-- State of the preprocessor while it walks through the header. -/
structure PPState where
  /-- object-like macro names currently defined -/
  defined : List String
  /-- function-like macros defined so far, oldest first -/
  macros : List MacroDef
  /-- headers included so far, oldest first -/
  included : List String
  /-- one entry per open conditional: is its current group selected? -/
  conds : List Bool
  deriving DecidableEq, Repr

/-- Path of the configuration header included on line 12. -/
def rathenaHpp : String := "../config/rathena.hpp"

/-- Include guard of the header (lines 4, 5 and 38). -/
def guardName : String := "CONFIG_CUSTOM_DEFINES_CORE_HPP"

/-- Name tested on line 14. -/
def flagRAthenaCN : String := "rAthenaCN"

/-- Name tested on line 24. -/
def flagBOM : String := "rAthenaCN_Support_Read_UTF8BOM_Configur"

/-- Name written in the comment closing the block, on line 36. -/
def flagBOMComment : String := "rAthenaCN_Support_Read_UTF8BOM_Configure"

/-- The directives of `defines_core.hpp`, lines 4 to 38, in order. -/
def defines_core_hpp : List Directive :=
  [ .ifndef guardName,
    .defineFlag guardName,
    .includeFile rathenaHpp,
    .ifdef flagRAthenaCN,
    .includeFile "<string>",
    .includeFile "../common/assistant.hpp",
    .includeFile "../common/utf8.hpp",
    .endif "rAthenaCN",
    .ifdef flagBOM,
    .defineFn ⟨"UTF8FOPEN", ["FILENAME", "MODE"], "fopen_ex", ["FILENAME", "MODE"]⟩,
    .defineFn ⟨"UTF8FGETS", ["BUFFER", "MAXCOUNT", "STREAM"],
               "fgets_ex", ["BUFFER", "MAXCOUNT", "STREAM"]⟩,
    .defineFn ⟨"UTF8FREAD", ["BUFFER", "ELEMENTSIZE", "ELEMENTCOUNT", "STREAM"],
               "fread_ex", ["BUFFER", "ELEMENTSIZE", "ELEMENTCOUNT", "STREAM"]⟩,
    .orElse,
    .defineFn ⟨"UTF8FOPEN", ["FILENAME", "MODE"], "fopen", ["FILENAME", "MODE"]⟩,
    .defineFn ⟨"UTF8FGETS", ["BUFFER", "MAXCOUNT", "STREAM"],
               "fgets", ["BUFFER", "MAXCOUNT", "STREAM"]⟩,
    .defineFn ⟨"UTF8FREAD", ["BUFFER", "ELEMENTSIZE", "ELEMENTCOUNT", "STREAM"],
               "fread", ["BUFFER", "ELEMENTSIZE", "ELEMENTCOUNT", "STREAM"]⟩,
    .endif flagBOMComment,
    .endif guardName ]

/-- Is `n` a defined macro name (object-like or function-like)? -/
def PPState.isDefined (st : PPState) (n : String) : Bool :=
  st.defined.contains n || st.macros.any (fun m => m.name == n)

/-- Text is processed only when every open conditional group is selected. -/
def PPState.active (st : PPState) : Bool :=
  st.conds.all id

/-- One directive.  `hdr p` lists the names that the included header `p` defines. -/
def step (hdr : String → List String) (st : PPState) : Directive → PPState
  | .ifndef n => { st with conds := (!st.isDefined n) :: st.conds }
  | .ifdef n => { st with conds := st.isDefined n :: st.conds }
  | .orElse =>
      match st.conds with
      | [] => st
      | c :: cs => { st with conds := (!c) :: cs }
  | .endif _ => { st with conds := st.conds.tail }
  | .defineFlag n => if st.active then { st with defined := st.defined ++ [n] } else st
  | .defineFn m => if st.active then { st with macros := st.macros ++ [m] } else st
  | .includeFile p =>
      if st.active then
        { st with included := st.included ++ [p], defined := st.defined ++ hdr p }
      else st

/-- Run a list of directives from a state. -/
def run (hdr : String → List String) (ds : List Directive) (st : PPState) : PPState :=
  ds.foldl (step hdr) st

/-- Headers of a build with configuration `cfg`: `../config/rathena.hpp` leaves
exactly the names of `cfg` defined. -/
def configHeaders (cfg : List String) (p : String) : List String :=
  if p = rathenaHpp then cfg else []

/-- State in which a translation unit first reaches the header. -/
def PPState.init : PPState := ⟨[], [], [], []⟩

/-- First inclusion of `defines_core.hpp` in a build with configuration `cfg`. -/
def preprocess (cfg : List String) : PPState :=
  run (configHeaders cfg) defines_core_hpp PPState.init

/-! ## Macro lookup and expansion -/

/-- All definitions of the macro `name`. -/
def PPState.defsOf (st : PPState) (name : String) : List MacroDef :=
  st.macros.filter (fun m => m.name == name)

/-- The definition a use of `name` resolves to. -/
def PPState.lookup (st : PPState) (name : String) : Option MacroDef :=
  st.macros.find? (fun m => m.name == name)

/-- Function that the macro `name` is bound to. -/
def PPState.binding (st : PPState) (name : String) : Option String :=
  (st.lookup name).map MacroDef.callee

/-- A call expression: function name and actual arguments, in order. -/
structure Call (α : Type) where
  fn : String
  args : List α
  deriving DecidableEq, Repr

/-- Actual argument substituted for the parameter `p`. -/
def substParam {α : Type} : List String → List α → String → Option α
  | q :: qs, a :: as, p => if q = p then some a else substParam qs as p
  | _, _, _ => none

/-- Substitution of the actual arguments in every argument of the replacement list. -/
def substArgs {α : Type} (params : List String) (actuals : List α) :
    List String → Option (List α)
  | [] => some []
  | p :: ps =>
      match substParam params actuals p, substArgs params actuals ps with
      | some a, some as => some (a :: as)
      | _, _ => none

/-- Expansion of a macro invocation with the given actual arguments. -/
def MacroDef.expand {α : Type} (m : MacroDef) (actuals : List α) : Option (Call α) :=
  if m.params.length = actuals.length then
    (substArgs m.params actuals m.args).map (fun as => ⟨m.callee, as⟩)
  else none

/-- Expansion of `name(actuals)` in the state `st`. -/
def PPState.expandCall {α : Type} (st : PPState) (name : String) (actuals : List α) :
    Option (Call α) :=
  (st.lookup name).bind (fun m => m.expand actuals)

/-- Value of a call when the functions are interpreted by `lib`. -/
def Call.eval {α β : Type} (lib : String → List α → β) (c : Call α) : β :=
  lib c.fn c.args

/-- Value of the macro invocation `name(actuals)` under the interpretation `lib`. -/
def PPState.evalMacro {α β : Type} (st : PPState) (lib : String → List α → β)
    (name : String) (actuals : List α) : Option β :=
  (st.expandCall name actuals).map (Call.eval lib)

/-- The three functions the primitives are bound to, in the order open, read-line,
read-block. -/
def PPState.strategy (st : PPState) : Option String × Option String × Option String :=
  (st.binding "UTF8FOPEN", st.binding "UTF8FGETS", st.binding "UTF8FREAD")

/-- The BOM-aware strategy. -/
def bomAware : Option String × Option String × Option String :=
  (some "fopen_ex", some "fgets_ex", some "fread_ex")

/-- The raw strategy. -/
def rawStrategy : Option String × Option String × Option String :=
  (some "fopen", some "fgets", some "fread")

/-- Macro table left by the branch of line 24 that is taken when the flag is defined. -/
def bomMacros : List MacroDef :=
  [ ⟨"UTF8FOPEN", ["FILENAME", "MODE"], "fopen_ex", ["FILENAME", "MODE"]⟩,
    ⟨"UTF8FGETS", ["BUFFER", "MAXCOUNT", "STREAM"], "fgets_ex", ["BUFFER", "MAXCOUNT", "STREAM"]⟩,
    ⟨"UTF8FREAD", ["BUFFER", "ELEMENTSIZE", "ELEMENTCOUNT", "STREAM"],
      "fread_ex", ["BUFFER", "ELEMENTSIZE", "ELEMENTCOUNT", "STREAM"]⟩ ]

/-- Macro table left by the `#else` branch. -/
def rawMacros : List MacroDef :=
  [ ⟨"UTF8FOPEN", ["FILENAME", "MODE"], "fopen", ["FILENAME", "MODE"]⟩,
    ⟨"UTF8FGETS", ["BUFFER", "MAXCOUNT", "STREAM"], "fgets", ["BUFFER", "MAXCOUNT", "STREAM"]⟩,
    ⟨"UTF8FREAD", ["BUFFER", "ELEMENTSIZE", "ELEMENTCOUNT", "STREAM"],
      "fread", ["BUFFER", "ELEMENTSIZE", "ELEMENTCOUNT", "STREAM"]⟩ ]

/-! ## Claims about the parameter lists, in the words of the specification -/

/-- The specification's shape of a read primitive: exactly three inputs, the handle
(the macro parameter `STREAM`) being the first. -/
def MacroDef.handleFirstOfThree (m : MacroDef) : Bool :=
  m.params.length == 3 && m.params.head? == some "STREAM"

/-- The shape the header gives to its read primitives: the handle (`STREAM`) is
the last parameter. -/
def MacroDef.handleLast (m : MacroDef) : Bool :=
  m.params.getLast? == some "STREAM"

/-! ## File reading

Files are finite byte sequences held in memory and bytes are natural numbers.  A
read on an open stream always succeeds; opening fails when the path names no file.
-/

/-- The UTF-8 byte-order mark `EF BB BF`. -/
def bomMarker : List Nat := [0xEF, 0xBB, 0xBF]

/-- Modelled from the spec: the platform's byte stream behind a `FILE*`, which is
outside the repository sources; it holds the bytes that have not been read yet. -/
structure FILE where
  unread : List Nat
  deriving DecidableEq, Repr

/-- Modelled from the spec: the handle of the BOM-aware strategy declared in
`../common/utf8.hpp`, a stream with the per-handle Read State "BOM check already
performed" (section 3). -/
structure FILE_ex where
  file : FILE
  checked : Bool
  deriving DecidableEq, Repr

/-- Outcome of a read: the bytes handed to the caller, the returned number and the
handle afterwards. -/
structure ReadResult (H : Type) where
  bytes : List Nat
  count : Nat
  stream : H
  deriving DecidableEq, Repr

/-- Bytes of one line: at most `k` bytes, ending after the first line feed. -/
def takeLine : Nat → List Nat → List Nat
  | 0, _ => []
  | _ + 1, [] => []
  | k + 1, b :: bs => if b = 0x0A then [b] else b :: takeLine k bs

/-- Modelled from the spec: the platform `fopen` (section 4.2, raw `open`), missing
from the sources; `fs` maps a path to the content of the file, if there is one. -/
def fopen (fs : String → Option (List Nat)) (filename _mode : String) : Option FILE :=
  (fs filename).map FILE.mk

/-- Modelled from the spec: the platform `fgets` (section 4.2, raw `read_line`),
missing from the sources: the next bytes of the file in order, at most
`maxCount - 1` of them and not beyond a line feed; returns the number of bytes
read, `0` at end-of-stream. -/
def fgets (maxCount : Nat) (stream : FILE) : ReadResult FILE :=
  let out := takeLine (maxCount - 1) stream.unread
  ⟨out, out.length, ⟨stream.unread.drop out.length⟩⟩

/-- Modelled from the spec: the platform `fread` (section 4.2, raw `read_block`),
missing from the sources: the next bytes of the file in order, at most
`elementSize * elementCount` of them; returns the number of whole elements read. -/
def fread (elementSize elementCount : Nat) (stream : FILE) : ReadResult FILE :=
  let out := stream.unread.take (elementSize * elementCount)
  ⟨out, out.length / elementSize, ⟨stream.unread.drop out.length⟩⟩

/-- Modelled from the spec: `fopen_ex` of `../common/utf8.hpp`, missing from the
sources (section 4.3 step 1): open, with the Read State "unchecked". -/
def fopen_ex (fs : String → Option (List Nat)) (filename mode : String) : Option FILE_ex :=
  (fopen fs filename mode).map (fun f => ⟨f, false⟩)

/-- Modelled from the spec: the one-time BOM probe of section 4.3 step 2, missing
from the sources.  On an unchecked handle the first 3 bytes are read; if they are
exactly the BOM marker they are discarded, otherwise they stay to be delivered.
The Read State becomes "checked" in both cases.  A checked handle is left alone. -/
def bomProbe (h : FILE_ex) : FILE_ex :=
  if h.checked then h
  else if h.file.unread.take 3 = bomMarker then ⟨⟨h.file.unread.drop 3⟩, true⟩
  else ⟨h.file, true⟩

/-- Modelled from the spec: `fgets_ex` of `../common/utf8.hpp`, missing from the
sources (section 4.3 steps 2 and 3): probe, then read a line as the raw strategy. -/
def fgets_ex (maxCount : Nat) (h : FILE_ex) : ReadResult FILE_ex :=
  let p := bomProbe h
  let r := fgets maxCount p.file
  ⟨r.bytes, r.count, ⟨r.stream, p.checked⟩⟩

/-- Modelled from the spec: `fread_ex` of `../common/utf8.hpp`, missing from the
sources (section 4.3 steps 2 and 3): probe, then read a block as the raw strategy. -/
def fread_ex (elementSize elementCount : Nat) (h : FILE_ex) : ReadResult FILE_ex :=
  let p := bomProbe h
  let r := fread elementSize elementCount p.file
  ⟨r.bytes, r.count, ⟨r.stream, p.checked⟩⟩

/-- A read request issued by a caller. -/
inductive ReadReq where
  | line (maxCount : Nat)
  | block (elementSize elementCount : Nat)
  deriving DecidableEq, Repr

/-- A request served by the raw binding (`fgets`, `fread`). -/
def readRaw : ReadReq → FILE → ReadResult FILE
  | .line n, f => fgets n f
  | .block es ec, f => fread es ec f

/-- A request served by the BOM-aware binding (`fgets_ex`, `fread_ex`). -/
def readEx : ReadReq → FILE_ex → ReadResult FILE_ex
  | .line n, h => fgets_ex n h
  | .block es ec, h => fread_ex es ec h

/-- Bytes and return value of each request of a sequence, raw binding. -/
def readsRaw : List ReadReq → FILE → List (List Nat × Nat)
  | [], _ => []
  | r :: rs, f => ((readRaw r f).bytes, (readRaw r f).count) :: readsRaw rs (readRaw r f).stream

/-- Bytes and return value of each request of a sequence, BOM-aware binding. -/
def readsEx : List ReadReq → FILE_ex → List (List Nat × Nat)
  | [], _ => []
  | r :: rs, h => ((readEx r h).bytes, (readEx r h).count) :: readsEx rs (readEx r h).stream

/-- Open with `fopen`, then serve the requests with `fgets` and `fread`. -/
def sessionRaw (fs : String → Option (List Nat)) (filename mode : String)
    (reqs : List ReadReq) : Option (List (List Nat × Nat)) :=
  (fopen fs filename mode).map (readsRaw reqs)

/-- Open with `fopen_ex`, then serve the requests with `fgets_ex` and `fread_ex`. -/
def sessionEx (fs : String → Option (List Nat)) (filename mode : String)
    (reqs : List ReadReq) : Option (List (List Nat × Nat)) :=
  (fopen_ex fs filename mode).map (readsEx reqs)

/-- All bytes delivered by a sequence of reads, in order. -/
def delivered (outs : List (List Nat × Nat)) : List Nat :=
  (outs.map Prod.fst).flatten

/-- A file system holding one file. -/
def oneFile (path : String) (content : List Nat) (p : String) : Option (List Nat) :=
  if p = path then some content else none

/-! ## Shape of the result of preprocessing -/

theorem preprocess_macros (cfg : List String) :
    (preprocess cfg).macros = if flagBOM ∈ cfg then bomMacros else rawMacros := by
  by_cases hb : flagBOM ∈ cfg <;> by_cases hr : flagRAthenaCN ∈ cfg <;>
    simp [preprocess, run, defines_core_hpp, step, PPState.init, PPState.isDefined,
      PPState.active, configHeaders, guardName, rathenaHpp, flagBOM, flagRAthenaCN,
      bomMacros, rawMacros] at * <;> simp [hb, hr]

theorem preprocess_included (cfg : List String) :
    (preprocess cfg).included =
      if flagRAthenaCN ∈ cfg then
        [rathenaHpp, "<string>", "../common/assistant.hpp", "../common/utf8.hpp"]
      else [rathenaHpp] := by
  by_cases hb : flagBOM ∈ cfg <;> by_cases hr : flagRAthenaCN ∈ cfg <;>
    simp [preprocess, run, defines_core_hpp, step, PPState.init, PPState.isDefined,
      PPState.active, configHeaders, guardName, rathenaHpp, flagBOM, flagRAthenaCN] at * <;>
    simp [hb, hr]

theorem preprocess_conds (cfg : List String) : (preprocess cfg).conds = [] := by
  by_cases hb : flagBOM ∈ cfg <;> by_cases hr : flagRAthenaCN ∈ cfg <;>
    simp [preprocess, run, defines_core_hpp, step, PPState.init, PPState.isDefined,
      PPState.active, configHeaders, guardName, rathenaHpp, flagBOM, flagRAthenaCN] at * <;>
    simp [hb, hr]

theorem strategy_eq (cfg : List String) :
    (preprocess cfg).strategy = if flagBOM ∈ cfg then bomAware else rawStrategy := by
  simp only [PPState.strategy, PPState.binding, PPState.lookup, preprocess_macros]
  split <;> decide

theorem lookup_eq (cfg : List String) (name : String) :
    (preprocess cfg).lookup name =
      (if flagBOM ∈ cfg then bomMacros else rawMacros).find? (fun m => m.name == name) := by
  simp only [PPState.lookup, preprocess_macros]

theorem defsOf_eq (cfg : List String) (name : String) :
    (preprocess cfg).defsOf name =
      (if flagBOM ∈ cfg then bomMacros else rawMacros).filter (fun m => m.name == name) := by
  simp only [PPState.defsOf, preprocess_macros]

theorem expandCall_fopen (cfg : List String) {α : Type} (f m : α) :
    (preprocess cfg).expandCall "UTF8FOPEN" [f, m] =
      some ⟨if flagBOM ∈ cfg then "fopen_ex" else "fopen", [f, m]⟩ := by
  simp only [PPState.expandCall, lookup_eq]
  split <;> simp [bomMacros, rawMacros, MacroDef.expand, substArgs, substParam]

theorem expandCall_fgets (cfg : List String) {α : Type} (b n s : α) :
    (preprocess cfg).expandCall "UTF8FGETS" [b, n, s] =
      some ⟨if flagBOM ∈ cfg then "fgets_ex" else "fgets", [b, n, s]⟩ := by
  simp only [PPState.expandCall, lookup_eq]
  split <;> simp [bomMacros, rawMacros, MacroDef.expand, substArgs, substParam]

theorem expandCall_fread (cfg : List String) {α : Type} (b es ec s : α) :
    (preprocess cfg).expandCall "UTF8FREAD" [b, es, ec, s] =
      some ⟨if flagBOM ∈ cfg then "fread_ex" else "fread", [b, es, ec, s]⟩ := by
  simp only [PPState.expandCall, lookup_eq]
  split <;> simp [bomMacros, rawMacros, MacroDef.expand, substArgs, substParam]

/-! ## The strategy selector -/

/-- C1: in every build configuration the three macros resolve to one strategy, either
`(fopen_ex, fgets_ex, fread_ex)` or `(fopen, fgets, fread)`, and each of the three
macros has exactly one definition. -/
theorem selector_uniform (cfg : List String) :
    ((preprocess cfg).strategy = bomAware ∨ (preprocess cfg).strategy = rawStrategy) ∧
    ((preprocess cfg).defsOf "UTF8FOPEN").length = 1 ∧
    ((preprocess cfg).defsOf "UTF8FGETS").length = 1 ∧
    ((preprocess cfg).defsOf "UTF8FREAD").length = 1 ∧
    (preprocess cfg).macros.length = 3 := by
  rw [strategy_eq, defsOf_eq, defsOf_eq, defsOf_eq, preprocess_macros]
  split <;> decide

/-- C6: the strategy is decided by the flag `rAthenaCN_Support_Read_UTF8BOM_Configur`
alone: defined gives the BOM-aware functions, undefined gives the raw functions,
whatever else the configuration defines; and the function a call expands to is the
same for all arguments. -/
theorem selector_single_flag (cfg : List String) {α : Type} (f m b n s es ec : α) :
    (preprocess cfg).macros = (if flagBOM ∈ cfg then bomMacros else rawMacros) ∧
    (preprocess cfg).strategy = (if flagBOM ∈ cfg then bomAware else rawStrategy) ∧
    ((preprocess cfg).expandCall "UTF8FOPEN" [f, m]).map Call.fn =
      (preprocess cfg).binding "UTF8FOPEN" ∧
    ((preprocess cfg).expandCall "UTF8FGETS" [b, n, s]).map Call.fn =
      (preprocess cfg).binding "UTF8FGETS" ∧
    ((preprocess cfg).expandCall "UTF8FREAD" [b, es, ec, s]).map Call.fn =
      (preprocess cfg).binding "UTF8FREAD" := by
  refine ⟨preprocess_macros cfg, strategy_eq cfg, ?_, ?_, ?_⟩
  · rw [expandCall_fopen, PPState.binding, lookup_eq]; split <;> simp [bomMacros, rawMacros]
  · rw [expandCall_fgets, PPState.binding, lookup_eq]; split <;> simp [bomMacros, rawMacros]
  · rw [expandCall_fread, PPState.binding, lookup_eq]; split <;> simp [bomMacros, rawMacros]

/-- C2: with `rAthenaCN_Support_Read_UTF8BOM_Configur` undefined each primitive is a
passthrough: under every interpretation `lib` of the platform functions the value of
`UTF8FOPEN(f, m)`, `UTF8FGETS(b, n, s)`, `UTF8FREAD(b, es, ec, s)` is that of
`fopen(f, m)`, `fgets(b, n, s)`, `fread(b, es, ec, s)`, with the same arguments in the
same positions. -/
theorem raw_passthrough (cfg : List String) (hraw : flagBOM ∉ cfg) {α β : Type}
    (lib : String → List α → β) (f m b n s es ec : α) :
    (preprocess cfg).evalMacro lib "UTF8FOPEN" [f, m] = some (lib "fopen" [f, m]) ∧
    (preprocess cfg).evalMacro lib "UTF8FGETS" [b, n, s] = some (lib "fgets" [b, n, s]) ∧
    (preprocess cfg).evalMacro lib "UTF8FREAD" [b, es, ec, s] =
      some (lib "fread" [b, es, ec, s]) := by
  simp [PPState.evalMacro, expandCall_fopen, expandCall_fgets, expandCall_fread, hraw,
    Call.eval]

/-- Witness of C2 for the configuration that defines only `rAthenaCN`. -/
theorem raw_passthrough_witness :
    (preprocess ["rAthenaCN"]).evalMacro (fun fn (as : List String) => (fn, as))
        "UTF8FOPEN" ["conf/char_athena.conf", "r"] =
      some ("fopen", ["conf/char_athena.conf", "r"]) ∧
    (preprocess ["rAthenaCN"]).evalMacro (fun fn (as : List String) => (fn, as))
        "UTF8FGETS" ["line", "1024", "fp"] = some ("fgets", ["line", "1024", "fp"]) ∧
    (preprocess ["rAthenaCN"]).evalMacro (fun fn (as : List String) => (fn, as))
        "UTF8FREAD" ["line", "1", "len", "fp"] = some ("fread", ["line", "1", "len", "fp"]) :=
  raw_passthrough ["rAthenaCN"] (by decide) (fun fn (as : List String) => (fn, as))
    "conf/char_athena.conf" "r" "line" "1024" "fp" "1" "len"

/-- C7: in any two build configurations each primitive has the same name and the same
parameter list (`UTF8FOPEN` 2, `UTF8FGETS` 3, `UTF8FREAD` 4 parameters), and each macro
forwards exactly its parameters, in order, to the function it is bound to. -/
theorem strategies_swappable (cfg₁ cfg₂ : List String) {α : Type} (f m b n s es ec : α) :
    (preprocess cfg₁).macros.map MacroDef.name = ["UTF8FOPEN", "UTF8FGETS", "UTF8FREAD"] ∧
    (preprocess cfg₁).macros.map MacroDef.name = (preprocess cfg₂).macros.map MacroDef.name ∧
    (preprocess cfg₁).macros.map MacroDef.params =
      (preprocess cfg₂).macros.map MacroDef.params ∧
    (preprocess cfg₁).macros.map (fun d => d.params.length) = [2, 3, 4] ∧
    (preprocess cfg₁).macros.map MacroDef.args = (preprocess cfg₁).macros.map MacroDef.params ∧
    ((preprocess cfg₁).expandCall "UTF8FOPEN" [f, m]).map Call.args = some [f, m] ∧
    ((preprocess cfg₁).expandCall "UTF8FGETS" [b, n, s]).map Call.args = some [b, n, s] ∧
    ((preprocess cfg₁).expandCall "UTF8FREAD" [b, es, ec, s]).map Call.args =
      some [b, es, ec, s] := by
  rw [expandCall_fopen, expandCall_fgets, expandCall_fread, preprocess_macros,
    preprocess_macros]
  refine ⟨?_, ?_, ?_, ?_, ?_, rfl, rfl, rfl⟩
  · split <;> rfl
  · split <;> split <;> rfl
  · split <;> split <;> rfl
  · split <;> rfl
  · split <;> rfl

/-- C8 (as stated) fails: under the raw and under the BOM-aware strategy `UTF8FREAD` has
four parameters, not three, and neither `UTF8FREAD` nor `UTF8FGETS` has the handle
`STREAM` as its first parameter. -/
theorem handle_first_refuted :
    ((preprocess []).lookup "UTF8FREAD").map MacroDef.handleFirstOfThree = some false ∧
    ((preprocess []).lookup "UTF8FGETS").map MacroDef.handleFirstOfThree = some false ∧
    ((preprocess [flagBOM]).lookup "UTF8FREAD").map MacroDef.handleFirstOfThree = some false ∧
    ((preprocess [flagBOM]).lookup "UTF8FGETS").map MacroDef.handleFirstOfThree = some false ∧
    ((preprocess []).lookup "UTF8FREAD").map (fun d => d.params.length) = some 4 ∧
    ((preprocess []).lookup "UTF8FGETS").map (fun d => d.params.head?) =
      some (some "BUFFER") := by
  decide

/-- C8 (amended): under both strategies read-line takes the three inputs
`(BUFFER, MAXCOUNT, STREAM)` and read-block the four inputs
`(BUFFER, ELEMENTSIZE, ELEMENTCOUNT, STREAM)`: the handle is the last argument of both
read primitives. -/
theorem handle_last (cfg : List String) :
    ((preprocess cfg).lookup "UTF8FGETS").map MacroDef.params =
      some ["BUFFER", "MAXCOUNT", "STREAM"] ∧
    ((preprocess cfg).lookup "UTF8FREAD").map MacroDef.params =
      some ["BUFFER", "ELEMENTSIZE", "ELEMENTCOUNT", "STREAM"] ∧
    ((preprocess cfg).lookup "UTF8FGETS").map MacroDef.handleLast = some true ∧
    ((preprocess cfg).lookup "UTF8FREAD").map MacroDef.handleLast = some true := by
  rw [lookup_eq, lookup_eq]
  split <;> decide

/-- C9 fails on the code: with `rAthenaCN_Support_Read_UTF8BOM_Configure` (the name in
the closing comment of the block) defined, the three macros are bound to the raw
functions, because the `#ifdef` opening the block tests the name without its final
`e`. -/
theorem comment_flag_selects_raw :
    (preprocess ["rAthenaCN", "rAthenaCN_Support_Read_UTF8BOM_Configure"]).strategy =
      rawStrategy ∧
    (preprocess ["rAthenaCN", "rAthenaCN_Support_Read_UTF8BOM_Configure"]).strategy ≠
      bomAware ∧
    Directive.ifdef "rAthenaCN_Support_Read_UTF8BOM_Configur" ∈ defines_core_hpp ∧
    Directive.endif "rAthenaCN_Support_Read_UTF8BOM_Configure" ∈ defines_core_hpp ∧
    Directive.ifdef "rAthenaCN_Support_Read_UTF8BOM_Configure" ∉ defines_core_hpp := by
  decide

/-- C10 (as stated) fails: with `rAthenaCN_Support_Read_UTF8BOM_Configur` defined and
`rAthenaCN` undefined the primitives are bound to the BOM-aware functions while
`../common/utf8.hpp` and `../common/assistant.hpp` are not included. -/
theorem bom_binding_without_includes :
    (preprocess ["rAthenaCN_Support_Read_UTF8BOM_Configur"]).strategy = bomAware ∧
    "../common/utf8.hpp" ∉ (preprocess ["rAthenaCN_Support_Read_UTF8BOM_Configur"]).included ∧
    "../common/assistant.hpp" ∉
      (preprocess ["rAthenaCN_Support_Read_UTF8BOM_Configur"]).included := by
  decide

/-- C10 (amended): in every build configuration in which `rAthenaCN` is defined and the
primitives are bound to the BOM-aware functions, the header has included
`../common/utf8.hpp` and `../common/assistant.hpp`. -/
theorem bom_binding_includes (cfg : List String) (hcn : flagRAthenaCN ∈ cfg)
    (_hbom : (preprocess cfg).strategy = bomAware) :
    "../common/utf8.hpp" ∈ (preprocess cfg).included ∧
    "../common/assistant.hpp" ∈ (preprocess cfg).included := by
  rw [preprocess_included]
  simp [hcn]

/-- Witness of the amended C10 for the configuration defining both names. -/
theorem bom_binding_includes_witness :
    "../common/utf8.hpp" ∈
      (preprocess ["rAthenaCN", "rAthenaCN_Support_Read_UTF8BOM_Configur"]).included ∧
    "../common/assistant.hpp" ∈
      (preprocess ["rAthenaCN", "rAthenaCN_Support_Read_UTF8BOM_Configur"]).included :=
  bom_binding_includes ["rAthenaCN", "rAthenaCN_Support_Read_UTF8BOM_Configur"]
    (by decide) (by decide)

/-! ## The BOM-aware strategy against the raw strategy -/

theorem takeLine_append_drop (k : Nat) (bs : List Nat) :
    takeLine k bs ++ bs.drop (takeLine k bs).length = bs := by
  induction k generalizing bs with
  | zero => simp [takeLine]
  | succ k ih =>
    cases bs with
    | nil => simp [takeLine]
    | cons b bs =>
      by_cases hb : b = 0x0A
      · simp [takeLine, hb]
      · simp [takeLine, hb, ih]

theorem takeLine_nil (k : Nat) : takeLine k [] = [] := by
  cases k <;> rfl

theorem take_append_drop_length (n : Nat) (bs : List Nat) :
    bs.take n ++ bs.drop (bs.take n).length = bs := by
  rcases Nat.le_total n bs.length with h | h
  · rw [List.length_take, Nat.min_eq_left h, List.take_append_drop]
  · rw [List.take_of_length_le h, List.drop_length, List.append_nil]

theorem readRaw_append (r : ReadReq) (f : FILE) :
    (readRaw r f).bytes ++ (readRaw r f).stream.unread = f.unread := by
  cases r with
  | line n => exact takeLine_append_drop (n - 1) f.unread
  | block es ec => exact take_append_drop_length (es * ec) f.unread

theorem readsRaw_delivered (reqs : List ReadReq) (f : FILE) :
    ∃ rest, delivered (readsRaw reqs f) ++ rest = f.unread := by
  induction reqs generalizing f with
  | nil => exact ⟨f.unread, by simp [readsRaw, delivered]⟩
  | cons r rs ih =>
    obtain ⟨rest, hrest⟩ := ih (readRaw r f).stream
    refine ⟨rest, ?_⟩
    have h := readRaw_append r f
    simp only [delivered, readsRaw, List.map_cons, List.flatten_cons, List.append_assoc] at *
    rw [hrest, h]

theorem bomProbe_checked (h : FILE_ex) : (bomProbe h).checked = true := by
  unfold bomProbe
  by_cases hc : h.checked = true
  · simp [hc]
  · by_cases hb : h.file.unread.take 3 = bomMarker <;> simp [hc, hb]

theorem bomProbe_of_checked (h : FILE_ex) (hc : h.checked = true) : bomProbe h = h := by
  simp [bomProbe, hc]

theorem readEx_checked (r : ReadReq) (h : FILE_ex) : (readEx r h).stream.checked = true := by
  cases r <;> simp [readEx, fgets_ex, fread_ex, bomProbe_checked]

theorem readEx_eq_probe (r : ReadReq) (h : FILE_ex) :
    readEx r h =
      ⟨(readRaw r (bomProbe h).file).bytes, (readRaw r (bomProbe h).file).count,
        ⟨(readRaw r (bomProbe h).file).stream, true⟩⟩ := by
  cases r <;> simp [readEx, readRaw, fgets_ex, fread_ex, bomProbe_checked]

theorem readEx_of_checked (r : ReadReq) (h : FILE_ex) (hc : h.checked = true) :
    readEx r h = ⟨(readRaw r h.file).bytes, (readRaw r h.file).count,
      ⟨(readRaw r h.file).stream, true⟩⟩ := by
  rw [readEx_eq_probe, bomProbe_of_checked h hc]

theorem readsEx_of_checked (reqs : List ReadReq) (h : FILE_ex) (hc : h.checked = true) :
    readsEx reqs h = readsRaw reqs h.file := by
  induction reqs generalizing h with
  | nil => rfl
  | cons r rs ih =>
    simp only [readsEx, readsRaw]
    rw [ih _ (readEx_checked r h), readEx_of_checked r h hc]

theorem readsEx_eq_probe (r : ReadReq) (rs : List ReadReq) (h : FILE_ex) :
    readsEx (r :: rs) h = readsRaw (r :: rs) (bomProbe h).file := by
  simp only [readsEx, readsRaw]
  rw [readsEx_of_checked rs _ (readEx_checked r h), readEx_eq_probe]

theorem readsEx_no_bom (reqs : List ReadReq) (content : List Nat)
    (hno : content.take 3 ≠ bomMarker) :
    readsEx reqs ⟨⟨content⟩, false⟩ = readsRaw reqs ⟨content⟩ := by
  cases reqs with
  | nil => rfl
  | cons r rs => rw [readsEx_eq_probe]; simp [bomProbe, hno]

theorem readsEx_bom (reqs : List ReadReq) (rest : List Nat) :
    readsEx reqs ⟨⟨bomMarker ++ rest⟩, false⟩ = readsRaw reqs ⟨rest⟩ := by
  cases reqs with
  | nil => rfl
  | cons r rs => rw [readsEx_eq_probe]; simp [bomProbe, bomMarker]

/-- C3: for every file whose content does not begin with `EF BB BF` (files shorter
than 3 bytes included) and every sequence of read-line and read-block requests of any
sizes, the BOM-aware binding delivers exactly what the raw binding delivers, and the
bytes delivered are the leading bytes of the file, in order. -/
theorem no_bom_same_as_raw (fs : String → Option (List Nat)) (filename mode : String)
    (content : List Nat) (hfile : fs filename = some content)
    (hno : content.take 3 ≠ bomMarker) (reqs : List ReadReq) :
    sessionEx fs filename mode reqs = sessionRaw fs filename mode reqs ∧
    sessionEx fs filename mode reqs = some (readsRaw reqs ⟨content⟩) ∧
    ∃ rest, delivered (readsRaw reqs ⟨content⟩) ++ rest = content := by
  refine ⟨?_, ?_, readsRaw_delivered reqs ⟨content⟩⟩ <;>
    simp [sessionEx, sessionRaw, fopen_ex, fopen, hfile, readsEx_no_bom reqs content hno]

/-- Witness of C3: the 2-byte file `EF BB`, read by a line request and a block
request. -/
theorem no_bom_same_as_raw_witness :
    sessionEx (oneFile "conf/a.conf" [0xEF, 0xBB]) "conf/a.conf" "r"
        [ReadReq.line 1024, ReadReq.block 1 16] =
      sessionRaw (oneFile "conf/a.conf" [0xEF, 0xBB]) "conf/a.conf" "r"
        [ReadReq.line 1024, ReadReq.block 1 16] ∧
    sessionEx (oneFile "conf/a.conf" [0xEF, 0xBB]) "conf/a.conf" "r"
        [ReadReq.line 1024, ReadReq.block 1 16] =
      some (readsRaw [ReadReq.line 1024, ReadReq.block 1 16] ⟨[0xEF, 0xBB]⟩) ∧
    ∃ rest, delivered (readsRaw [ReadReq.line 1024, ReadReq.block 1 16] ⟨[0xEF, 0xBB]⟩)
      ++ rest = [0xEF, 0xBB] :=
  no_bom_same_as_raw (oneFile "conf/a.conf" [0xEF, 0xBB]) "conf/a.conf" "r" [0xEF, 0xBB]
    (by decide) (by decide) [ReadReq.line 1024, ReadReq.block 1 16]

/-- C4: for every file beginning with `EF BB BF` the BOM-aware binding delivers what
the raw binding delivers on the same file without its first 3 bytes; the file
`EF BB BF 48 69 0A` yields `48 69 0A` on the first read-line (buffer of 4 bytes or
more), and the file `EF BB BF` yields zero bytes and the result 0 on a first read-line
or read-block. -/
theorem bom_stripped (fs fs' : String → Option (List Nat)) (filename mode : String)
    (rest : List Nat) (hfile : fs filename = some (bomMarker ++ rest))
    (hfile' : fs' filename = some rest) (reqs : List ReadReq) (n es ec : Nat) :
    sessionEx fs filename mode reqs = sessionRaw fs' filename mode reqs ∧
    (fgets_ex (n + 4) ⟨⟨[0xEF, 0xBB, 0xBF, 0x48, 0x69, 0x0A]⟩, false⟩).bytes =
      [0x48, 0x69, 0x0A] ∧
    (fgets_ex n ⟨⟨[0xEF, 0xBB, 0xBF]⟩, false⟩).bytes = [] ∧
    (fgets_ex n ⟨⟨[0xEF, 0xBB, 0xBF]⟩, false⟩).count = 0 ∧
    (fread_ex es ec ⟨⟨[0xEF, 0xBB, 0xBF]⟩, false⟩).bytes = [] ∧
    (fread_ex es ec ⟨⟨[0xEF, 0xBB, 0xBF]⟩, false⟩).count = 0 := by
  refine ⟨?_, ?_, ?_, ?_, ?_, ?_⟩
  · simp [sessionEx, sessionRaw, fopen_ex, fopen, hfile, hfile', readsEx_bom reqs rest]
  · simp [fgets_ex, bomProbe, bomMarker, fgets, takeLine]
  · simp [fgets_ex, bomProbe, bomMarker, fgets, takeLine_nil]
  · simp [fgets_ex, bomProbe, bomMarker, fgets, takeLine_nil]
  · simp [fread_ex, bomProbe, bomMarker, fread]
  · simp [fread_ex, bomProbe, bomMarker, fread]

/-- Witness of C4: the file `EF BB BF 48 69 0A` against the file `48 69 0A`. -/
theorem bom_stripped_witness :
    sessionEx (oneFile "conf/a.conf" [0xEF, 0xBB, 0xBF, 0x48, 0x69, 0x0A]) "conf/a.conf" "r"
        [ReadReq.line 1024] =
      sessionRaw (oneFile "conf/a.conf" [0x48, 0x69, 0x0A]) "conf/a.conf" "r"
        [ReadReq.line 1024] ∧
    (fgets_ex (1020 + 4) ⟨⟨[0xEF, 0xBB, 0xBF, 0x48, 0x69, 0x0A]⟩, false⟩).bytes =
      [0x48, 0x69, 0x0A] ∧
    (fgets_ex 1020 ⟨⟨[0xEF, 0xBB, 0xBF]⟩, false⟩).bytes = [] ∧
    (fgets_ex 1020 ⟨⟨[0xEF, 0xBB, 0xBF]⟩, false⟩).count = 0 ∧
    (fread_ex 1 16 ⟨⟨[0xEF, 0xBB, 0xBF]⟩, false⟩).bytes = [] ∧
    (fread_ex 1 16 ⟨⟨[0xEF, 0xBB, 0xBF]⟩, false⟩).count = 0 :=
  bom_stripped (oneFile "conf/a.conf" [0xEF, 0xBB, 0xBF, 0x48, 0x69, 0x0A])
    (oneFile "conf/a.conf" [0x48, 0x69, 0x0A]) "conf/a.conf" "r" [0x48, 0x69, 0x0A]
    (by decide) (by decide) [ReadReq.line 1024] 1020 1 16

/-- C5: on every handle, after a first read of any kind the Read State is "checked",
and every later read, alone or in a sequence, returns exactly what the raw strategy
returns on the stream as it then stands, so nothing is stripped again, also when the
unread bytes begin with `EF BB BF`. -/
theorem probe_once (h : FILE_ex) (first later : ReadReq) (reqs : List ReadReq)
    (rest : List Nat) :
    (readEx first h).stream.checked = true ∧
    readEx later (readEx first h).stream =
      ⟨(readRaw later (readEx first h).stream.file).bytes,
        (readRaw later (readEx first h).stream.file).count,
        ⟨(readRaw later (readEx first h).stream.file).stream, true⟩⟩ ∧
    readsEx reqs (readEx first h).stream = readsRaw reqs (readEx first h).stream.file ∧
    readsEx reqs ⟨⟨bomMarker ++ rest⟩, true⟩ = readsRaw reqs ⟨bomMarker ++ rest⟩ :=
  ⟨readEx_checked first h,
   readEx_of_checked later _ (readEx_checked first h),
   readsEx_of_checked reqs _ (readEx_checked first h),
   readsEx_of_checked reqs _ rfl⟩

end DefinesCore
